import Mathlib

/-!
Verification of the ConsciousDay agent module (`agent/reflection_agent.py`).

Text is modelled as `List Char`.  Python semantics modelled here:
  * `str.strip()` — removal of leading/trailing whitespace (`pyStrip`; the
    ASCII whitespace characters, which cover every string the module handles);
  * `re.sub(r"```(?:json)?\s*", "", text)` — a left-to-right scan removing
    every occurrence of a code fence, an optional `json` tag and the
    whitespace that follows (`removeFences`);
  * `re.sub(r"\s*```$", "", text)` — removal of a trailing fence together
    with the whitespace run before it, where `$` also matches just before a
    final newline (`stripTrailingFence`);
  * `str.find` / `str.rfind` — `findIdx` / `rfindIdx` returning `Option Nat`
    in place of the `-1` sentinel;
  * `json.loads` — a recursive-descent parser over the JSON grammar
    (`json_loads`), structural on a fuel counter.
-/

/-- Whitespace test used by `str.strip()` and the regex class `\s`
(ASCII range; the module only ever strips these characters). -/
def isPySpace (c : Char) : Bool :=
  c = ' ' || c = '\t' || c = '\n' || c = '\r' || c = '\x0b' || c = '\x0c'

/-- Removal of trailing whitespace (the right half of `str.strip()`). -/
def dropTrailingWs (l : List Char) : List Char :=
  (l.reverse.dropWhile isPySpace).reverse

/-- Python `str.strip()`: drop leading and trailing whitespace. -/
def pyStrip (l : List Char) : List Char :=
  dropTrailingWs (l.dropWhile isPySpace)

/-- The backtick character (code point 96). -/
def btick : Char := Char.ofNat 96

/-- The three-character Markdown fence token. -/
def fenceChars : List Char := [btick, btick, btick]

/-- Consumption of the optional `json` tag after a fence
(the `(?:json)?` group of the first regex). -/
def dropJsonTag (l : List Char) : List Char :=
  if l.take 4 = ("json").data then l.drop 4 else l

/-- Text consumed after a fence match: the optional `json` tag and then the
whitespace run (the `(?:json)?\s*` tail of the first regex). -/
def afterFence (l : List Char) : List Char :=
  List.dropWhile isPySpace (dropJsonTag l)

/-- Fuel-driven scan of `re.sub(r"```(?:json)?\s*", "", text)`: at each
position, a fence match removes the fence, the optional tag and following
whitespace and the scan resumes after the match; otherwise the character is
kept.  Fuel at least the length of the list makes the scan complete. -/
def removeFencesF : Nat → List Char → List Char
  | 0, l => l
  | fuel + 1, l =>
    match l with
    | [] => []
    | c :: rest =>
      if (c :: rest).take 3 = fenceChars then
        removeFencesF fuel (afterFence (rest.drop 2))
      else c :: removeFencesF fuel rest

/-- Global fence removal, line 107 of `reflection_agent.py`. -/
def removeFences (l : List Char) : List Char :=
  removeFencesF l.length l

/-- Suffix test on character lists (Python `str.endswith` on the raw list). -/
def endsWithChars (pat l : List Char) : Bool :=
  decide (l.drop (l.length - pat.length) = pat)

/-- Model of `re.sub(r"\s*```$", "", text)`, line 108: remove one trailing
fence together with the maximal whitespace run before it; `$` also matches
just before a final newline, in which case the newline is kept. -/
def stripTrailingFence (l : List Char) : List Char :=
  if endsWithChars fenceChars l then
    dropTrailingWs (l.take (l.length - 3))
  else if endsWithChars (fenceChars ++ ['\n']) l then
    dropTrailingWs (l.take (l.length - 4)) ++ ['\n']
  else l

/-- The cleaned text of `_extract_json_from_text`, lines 107-108:
both substitutions, each followed by `.strip()`. -/
def cleanedText (text : List Char) : List Char :=
  pyStrip (stripTrailingFence (pyStrip (removeFences text)))

/-- Python `str.find` for a single character: index of the first
occurrence, `none` in place of `-1`. -/
def findIdx (ch : Char) : List Char → Option Nat
  | [] => none
  | c :: rest => if c = ch then some 0 else (findIdx ch rest).map (· + 1)

/-- Python `str.rfind` for a single character: index of the last
occurrence, `none` in place of `-1`. -/
def rfindIdx (ch : Char) : List Char → Option Nat
  | [] => none
  | c :: rest =>
    match rfindIdx ch rest with
    | some i => some (i + 1)
    | none => if c = ch then some 0 else none

/-- Model of `_extract_json_from_text` (lines 96-121): empty input gives
`none`; after fence cleaning, text that starts with a brace and ends with a
brace is returned whole; otherwise the span from the first opening brace to
the last closing brace is returned (stripped) when the closing brace comes
later; otherwise `none`. -/
def extract_json_from_text (text : List Char) : Option (List Char) :=
  if text = [] then none
  else
    let fr := cleanedText text
    if fr.head? = some '\x7b' ∧ fr.getLast? = some '\x7d' then some fr
    else
      match findIdx '\x7b' fr, rfindIdx '\x7d' fr with
      | some s, some e =>
        if s < e then some (pyStrip ((fr.drop s).take (e + 1 - s))) else none
      | _, _ => none

/-- A decoded JSON value as produced by `json.loads`.  Numbers keep their
lexeme: the module never computes with numeric values, only tests whether a
value is a string, so the lexeme is a faithful representation. -/
inductive Json where
  | null
  | bool (b : Bool)
  | num (lexeme : List Char)
  | str (s : List Char)
  | arr (elems : List Json)
  | obj (members : List (List Char × Json))

/-- Whitespace skipped between JSON tokens (`json.decoder` skips exactly
space, tab, newline and carriage return). -/
def isJsonWs (c : Char) : Bool :=
  c = ' ' || c = '\t' || c = '\n' || c = '\r'

/-- Skip inter-token JSON whitespace. -/
def skipW (l : List Char) : List Char := l.dropWhile isJsonWs

/-- Value of one hexadecimal digit. -/
def hexVal (c : Char) : Option Nat :=
  if '0' ≤ c ∧ c ≤ '9' then some (c.toNat - '0'.toNat)
  else if 'a' ≤ c ∧ c ≤ 'f' then some (c.toNat - 'a'.toNat + 10)
  else if 'A' ≤ c ∧ c ≤ 'F' then some (c.toNat - 'A'.toNat + 10)
  else none

/-- Four hexadecimal digits of a `\uXXXX` escape. -/
def parseHex4 : List Char → Option (Nat × List Char)
  | a :: b :: c :: d :: rest =>
    match hexVal a, hexVal b, hexVal c, hexVal d with
    | some x, some y, some z, some w => some (((x * 16 + y) * 16 + z) * 16 + w, rest)
    | _, _, _, _ => none
  | _ => none

/-- Translation of a single-character string escape. -/
def escChar : Char → Option Char
  | '\x22' => some '\x22'
  | '\\' => some '\\'
  | '/' => some '/'
  | 'b' => some '\x08'
  | 'f' => some '\x0c'
  | 'n' => some '\n'
  | 'r' => some '\r'
  | 't' => some '\t'
  | _ => none

/-- Body of a JSON string after the opening quote (strict mode: raw control
characters below 0x20 are rejected).  A `\uXXXX` escape yields its code
unit; surrogate pairs are not joined (the module never feeds the parser
such input).  Fuel at least the length of the list suffices. -/
def parseStringBodyF : Nat → List Char → Option (List Char × List Char)
  | 0, _ => none
  | fuel + 1, l =>
    match l with
    | [] => none
    | '\x22' :: rest => some ([], rest)
    | '\\' :: rest =>
      match rest with
      | [] => none
      | 'u' :: rest' =>
        match parseHex4 rest' with
        | some (n, rest'') =>
          (parseStringBodyF fuel rest'').map (fun p => (Char.ofNat n :: p.1, p.2))
        | none => none
      | e :: rest' =>
        match escChar e with
        | some c => (parseStringBodyF fuel rest').map (fun p => (c :: p.1, p.2))
        | none => none
    | c :: rest =>
      if c.toNat < 32 then none
      else (parseStringBodyF fuel rest).map (fun p => (c :: p.1, p.2))

/-- Integer part of a JSON number: `0`, or a nonzero digit followed by
digits (the `(?:0|[1-9]\d*)` group of the decoder's number pattern). -/
def parseIntPart : List Char → Option (List Char × List Char)
  | [] => none
  | '0' :: rest => some (['0'], rest)
  | c :: rest =>
    if c.isDigit then some (c :: rest.takeWhile Char.isDigit, rest.dropWhile Char.isDigit)
    else none

/-- Optional fraction part `(\.\d+)?`: consumed only when a digit follows
the dot, mirroring the regex backtracking. -/
def parseFracPart : List Char → List Char × List Char
  | '.' :: c :: rest =>
    if c.isDigit then ('.' :: c :: rest.takeWhile Char.isDigit, rest.dropWhile Char.isDigit)
    else ([], '.' :: c :: rest)
  | l => ([], l)

/-- Optional exponent part `([eE][-+]?\d+)?`: consumed only when at least
one digit follows. -/
def parseExpPart (l : List Char) : List Char × List Char :=
  match l with
  | e :: rest =>
    if e = 'e' ∨ e = 'E' then
      match rest with
      | s :: rest' =>
        if s = '+' ∨ s = '-' then
          match rest' with
          | d :: rest'' =>
            if d.isDigit then (e :: s :: d :: rest''.takeWhile Char.isDigit, rest''.dropWhile Char.isDigit)
            else ([], l)
          | [] => ([], l)
        else if s.isDigit then (e :: s :: rest'.takeWhile Char.isDigit, rest'.dropWhile Char.isDigit)
        else ([], l)
      | [] => ([], l)
    else ([], l)
  | [] => ([], l)

/-- A JSON number lexeme: optional minus, integer part, optional fraction
and exponent. -/
def parseNumber (l : List Char) : Option (List Char × List Char) :=
  match l with
  | '-' :: rest =>
    (parseIntPart rest).map (fun p =>
      let fr := parseFracPart p.2
      let ex := parseExpPart fr.2
      ('-' :: p.1 ++ fr.1 ++ ex.1, ex.2))
  | _ =>
    (parseIntPart l).map (fun p =>
      let fr := parseFracPart p.2
      let ex := parseExpPart fr.2
      (p.1 ++ fr.1 ++ ex.1, ex.2))

mutual

/-- One JSON value at the head of the input (whitespace already skipped),
dispatching on the first character exactly as the `json` scanner does:
objects, arrays, strings, the literals, then numbers (with the `NaN`,
`Infinity` and `-Infinity` extensions the decoder accepts). -/
def parseValueF : Nat → List Char → Option (Json × List Char)
  | 0, _ => none
  | fuel + 1, l =>
    match l with
    | '\x7b' :: rest =>
      (match skipW rest with
       | '\x7d' :: r => some (Json.obj [], r)
       | l2 => (parsePairsF fuel l2).map (fun p => (Json.obj p.1, p.2)))
    | '[' :: rest =>
      (match skipW rest with
       | ']' :: r => some (Json.arr [], r)
       | l2 => (parseItemsF fuel l2).map (fun p => (Json.arr p.1, p.2)))
    | '\x22' :: rest =>
      (parseStringBodyF (rest.length + 1) rest).map (fun p => (Json.str p.1, p.2))
    | _ =>
      if l.take 4 = ("null").data then some (Json.null, l.drop 4)
      else if l.take 4 = ("true").data then some (Json.bool true, l.drop 4)
      else if l.take 5 = ("false").data then some (Json.bool false, l.drop 5)
      else if l.take 3 = ("NaN").data then some (Json.num ("NaN").data, l.drop 3)
      else if l.take 8 = ("Infinity").data then some (Json.num ("Infinity").data, l.drop 8)
      else if l.take 9 = ("-Infinity").data then some (Json.num ("-Infinity").data, l.drop 9)
      else (parseNumber l).map (fun p => (Json.num p.1, p.2))

/-- Nonempty member list of an object: a quoted key, a colon, a value, then
either a comma and further members or the closing brace. -/
def parsePairsF : Nat → List Char → Option (List (List Char × Json) × List Char)
  | 0, _ => none
  | fuel + 1, l =>
    match l with
    | '\x22' :: rest =>
      (match parseStringBodyF (rest.length + 1) rest with
       | none => none
       | some (key, r1) =>
         match skipW r1 with
         | ':' :: r2 =>
           (match parseValueF fuel (skipW r2) with
            | none => none
            | some (v, r3) =>
              match skipW r3 with
              | ',' :: r4 => (parsePairsF fuel (skipW r4)).map (fun p => ((key, v) :: p.1, p.2))
              | '\x7d' :: r4 => some ([(key, v)], r4)
              | _ => none)
         | _ => none)
    | _ => none

/-- Nonempty element list of an array: a value, then either a comma and
further elements or the closing bracket. -/
def parseItemsF : Nat → List Char → Option (List Json × List Char)
  | 0, _ => none
  | fuel + 1, l =>
    match parseValueF fuel l with
    | none => none
    | some (v, r1) =>
      match skipW r1 with
      | ',' :: r2 => (parseItemsF fuel (skipW r2)).map (fun p => (v :: p.1, p.2))
      | ']' :: r2 => some ([v], r2)
      | _ => none

end

/-- Model of `json.loads`: skip leading whitespace, parse one value, then
require only whitespace to remain; any failure or trailing data gives
`none` (the `JSONDecodeError` cases). -/
def json_loads (l : List Char) : Option Json :=
  match parseValueF (l.length + 1) (skipW l) with
  | some (v, rest) => if skipW rest = [] then some v else none
  | none => none

/-- Key of the `reflection` field. -/
def reflectionK : List Char := ("reflection").data

/-- Key of the `dream_summary` field. -/
def dream_summaryK : List Char := ("dream_summary").data

/-- Key of the `mindset` field. -/
def mindsetK : List Char := ("mindset").data

/-- Key of the `strategy` field. -/
def strategyK : List Char := ("strategy").data

/-- Key of the `error` field of an error dict. -/
def errK : List Char := ("error").data

/-- Key of the `raw` field of an error dict. -/
def rawK : List Char := ("raw").data

/-- Message returned when neither credential is configured (line 142). -/
def noKeyMsg : List Char :=
  ("No API key configured. Set OPENAI_API_KEY (for OpenRouter/OpenAI) or TOGETHER_API_KEY.").data

/-- Message of the `RuntimeError` raised by `_build_llm` (line 81). -/
def buildLlmMsg : List Char :=
  ("OPENAI_API_KEY not set. Set OPENAI_API_KEY (or configure Together AI separately).").data

/-- Error kind of a failed provider call (line 159). -/
def llmFailedMsg : List Char := ("LLM call failed").data

/-- Error kind when no JSON is found in the model output (line 167). -/
def noJsonMsg : List Char := ("Could not find JSON in model output").data

/-- Error kind of a JSON parse failure (line 173). -/
def decodeMsg : List Char := ("JSON decode error").data

/-- Python `dict.get(key, default)` over an association list. -/
def pyDictGet (m : List (List Char × Json)) (k : List Char) (dflt : Json) : Json :=
  (List.lookup k m).getD dflt

/-- One field of the result dict (lines 177-180):
`data.get(k, "").strip() if isinstance(data.get(k, ""), str) else ""`. -/
def strField (m : List (List Char × Json)) (k : List Char) : List Char :=
  match pyDictGet m k (Json.str []) with
  | Json.str s => pyStrip s
  | _ => []

/-- The `result` dict built at lines 176-181: the four fixed keys, each
bound to its normalized field. -/
def normalizeResult (m : List (List Char × Json)) : List (List Char × Json) :=
  [(reflectionK, Json.str (strField m reflectionK)),
   (dream_summaryK, Json.str (strField m dream_summaryK)),
   (mindsetK, Json.str (strField m mindsetK)),
   (strategyK, Json.str (strField m strategyK))]

/-- The environment credentials read at lines 39-41: `os.getenv` yields
`none` for an unset variable. -/
structure Config where
  OPENAI_API_KEY : Option (List Char)
  TOGETHER_API_KEY : Option (List Char)

/-- Python truthiness of an optional string: `None` and the empty string
are falsy. -/
def truthy : Option (List Char) → Bool
  | none => false
  | some s => !s.isEmpty

/-- Behavior of the chain invocation (`LLMChain(...)` plus `chain.run` at
lines 149-157), opaque to the module: the remote call either returns the
completion text or raises, and the raised exception stringifies to the
given message. -/
inductive ProviderBehavior where
  | ok (raw : List Char)
  | raises (msg : List Char)

/-- Body of the `try` block at lines 147-157: `_build_llm` raises its
`RuntimeError` when `OPENAI_API_KEY` is falsy (line 80), otherwise the
chain runs with the opaque provider behavior. -/
def llmStep (cfg : Config) (p : ProviderBehavior) : Except (List Char) (List Char) :=
  if truthy cfg.OPENAI_API_KEY = false then Except.error buildLlmMsg
  else
    match p with
    | ProviderBehavior.ok raw => Except.ok raw
    | ProviderBehavior.raises msg => Except.error msg

/-- Parse-and-normalize tail of `generate_reflection` (lines 169-183).
`data.get` on a non-mapping raises `AttributeError`, which no handler
catches; that uncaught exception is the `none` outcome. -/
def afterParse (jt : List Char) : Option (List (List Char × Json)) :=
  match json_loads jt with
  | none => some [(errK, Json.str decodeMsg), (rawK, Json.str jt)]
  | some (Json.obj data) => some (normalizeResult data)
  | some _ => none

/-- Extraction tail of `generate_reflection` (lines 161-167): strip the raw
output, extract a JSON substring, and fall to the not-found error when the
result is `None` or empty (`if not json_text`). -/
def afterLlm (raw_output : List Char) : Option (List (List Char × Json)) :=
  match extract_json_from_text (pyStrip raw_output) with
  | none => some [(errK, Json.str noJsonMsg), (rawK, Json.str (pyStrip raw_output))]
  | some jt =>
    if jt = [] then some [(errK, Json.str noJsonMsg), (rawK, Json.str (pyStrip raw_output))]
    else afterParse jt

set_option linter.unusedVariables false in
/-- Model of `generate_reflection` (lines 124-183).  The four inputs reach
the provider only through the prompt, so the provider's reply is the
opaque `ProviderBehavior` parameter; `journal or ""` and its three
companions (lines 134-137) are the identity on strings.  The value is the
returned dict, or `none` for the one uncaught-exception path. -/
def generate_reflection (cfg : Config) (p : ProviderBehavior)
    (journal intention dream priorities : List Char) : Option (List (List Char × Json)) :=
  if (truthy cfg.OPENAI_API_KEY || truthy cfg.TOGETHER_API_KEY) = false then
    some [(errK, Json.str noKeyMsg), (rawK, Json.null)]
  else
    match llmStep cfg p with
    | Except.error exc => some [(errK, Json.str llmFailedMsg), (rawK, Json.str exc)]
    | Except.ok raw_output => afterLlm raw_output

/-- The `PROMPT_TEMPLATE` literal, lines 45-67 of `reflection_agent.py`
(braces written with their code points). -/
def PROMPT_TEMPLATE : List Char :=
  ("You are a daily reflection and planning assistant.\n" ++
   "Your goals:\n" ++
   "1) Reflect on the user's morning journal and dream input.\n" ++
   "2) Interpret the user's emotional and mental state.\n" ++
   "3) Understand their intention and top 3 priorities.\n" ++
   "4) Generate a practical, energy-aligned, time-aware strategy for the day.\n" ++
   "\n" ++
   "INPUT:\n" ++
   "Morning Journal: \x7bjournal\x7d\n" ++
   "Intention: \x7bintention\x7d\n" ++
   "Dream: \x7bdream\x7d\n" ++
   "Top 3 Priorities: \x7bpriorities\x7d\n" ++
   "\n" ++
   "OUTPUT (in JSON):\n" ++
   "Return a JSON object exactly with these keys:\n" ++
   "- reflection (short paragraph)\n" ++
   "- dream_summary (short paragraph)\n" ++
   "- mindset (short paragraph)\n" ++
   "- strategy (short paragraph, include time-aligned suggestions if possible)\n" ++
   "\n" ++
   "Example:\n" ++
   "\x7b\x7b\"reflection\":\"...\",\"dream_summary\":\"...\",\"mindset\":\"...\",\"strategy\":\"...\"\x7d\x7d\n").data

/-- Fuel-driven format-string rendering as `PromptTemplate` performs it on
this template: a doubled brace emits a literal brace, a single opening
brace starts a placeholder that is replaced by the value of the named
variable, and every other character is copied. -/
def renderTemplateF : Nat → (List Char → List Char) → List Char → List Char
  | 0, _, l => l
  | fuel + 1, vars, l =>
    match l with
    | [] => []
    | '\x7b' :: '\x7b' :: rest => '\x7b' :: renderTemplateF fuel vars rest
    | '\x7d' :: '\x7d' :: rest => '\x7d' :: renderTemplateF fuel vars rest
    | '\x7b' :: rest =>
      let name := rest.takeWhile (fun c => c ≠ '\x7d')
      vars name ++ renderTemplateF fuel vars (rest.drop (name.length + 1))
    | c :: rest => c :: renderTemplateF fuel vars rest

/-- Variable assignment of the chain input dict (lines 152-157). -/
def promptVars (j i d p : List Char) : List Char → List Char := fun n =>
  if n = ("journal").data then j
  else if n = ("intention").data then i
  else if n = ("dream").data then d
  else if n = ("priorities").data then p
  else []

/-- The rendered prompt the chain sends to the provider: the template with
the four inputs substituted. -/
def buildPrompt (j i d p : List Char) : List Char :=
  renderTemplateF PROMPT_TEMPLATE.length (promptVars j i d p) PROMPT_TEMPLATE

/-- Number of indices at which `pat` occurs as a substring. -/
def countOcc (pat : List Char) : List Char → Nat
  | [] => if pat = [] then 1 else 0
  | c :: rest => (if (c :: rest).take pat.length = pat then 1 else 0) + countOcc pat rest

/-- Template text before the journal slot, ending in its label. -/
def promptSeg0 : List Char :=
  ("You are a daily reflection and planning assistant.\n" ++
   "Your goals:\n" ++
   "1) Reflect on the user's morning journal and dream input.\n" ++
   "2) Interpret the user's emotional and mental state.\n" ++
   "3) Understand their intention and top 3 priorities.\n" ++
   "4) Generate a practical, energy-aligned, time-aware strategy for the day.\n" ++
   "\n" ++
   "INPUT:\n" ++
   "Morning Journal: ").data

/-- Template text between the journal and intention slots. -/
def promptSeg1 : List Char := ("\nIntention: ").data

/-- Template text between the intention and dream slots. -/
def promptSeg2 : List Char := ("\nDream: ").data

/-- Template text between the dream and priorities slots. -/
def promptSeg3 : List Char := ("\nTop 3 Priorities: ").data

/-- Template text after the priorities slot (the doubled braces of the
example line now rendered as single braces). -/
def promptSeg4 : List Char :=
  ("\n" ++
   "\n" ++
   "OUTPUT (in JSON):\n" ++
   "Return a JSON object exactly with these keys:\n" ++
   "- reflection (short paragraph)\n" ++
   "- dream_summary (short paragraph)\n" ++
   "- mindset (short paragraph)\n" ++
   "- strategy (short paragraph, include time-aligned suggestions if possible)\n" ++
   "\n" ++
   "Example:\n" ++
   "\x7b\"reflection\":\"...\",\"dream_summary\":\"...\",\"mindset\":\"...\",\"strategy\":\"...\"\x7d\n").data

/-! ### Shared lemmas about stripping and index search -/

theorem dropWhile_eq_self_of_head (l : List Char) (c : Char)
    (hh : l.head? = some c) (hc : isPySpace c = false) :
    l.dropWhile isPySpace = l := by
  cases l with
  | nil => rfl
  | cons a t =>
    simp only [List.head?_cons, Option.some.injEq] at hh
    subst hh
    simp [List.dropWhile_cons, hc]

theorem dropTrailingWs_eq_self (l : List Char) (c : Char)
    (hh : l.getLast? = some c) (hc : isPySpace c = false) :
    dropTrailingWs l = l := by
  unfold dropTrailingWs
  rw [← List.head?_reverse] at hh
  rw [dropWhile_eq_self_of_head l.reverse c hh hc, List.reverse_reverse]

theorem pyStrip_eq_self (l : List Char) (c d : Char)
    (hh : l.head? = some c) (hc : isPySpace c = false)
    (hl : l.getLast? = some d) (hd : isPySpace d = false) :
    pyStrip l = l := by
  unfold pyStrip
  rw [dropWhile_eq_self_of_head l c hh hc, dropTrailingWs_eq_self l d hl hd]

theorem findIdx_get (ch : Char) :
    ∀ (l : List Char) (i : Nat), findIdx ch l = some i → l[i]? = some ch := by
  intro l
  induction l with
  | nil => intro i h; simp [findIdx] at h
  | cons c rest ih =>
    intro i h
    by_cases hc : c = ch
    · simp only [findIdx, if_pos hc, Option.some.injEq] at h
      subst hc
      simp [← h]
    · simp only [findIdx, if_neg hc, Option.map_eq_some'] at h
      obtain ⟨k, hk, rfl⟩ := h
      simpa using ih k hk

theorem findIdx_min (ch : Char) :
    ∀ (l : List Char) (i : Nat), l[i]? = some ch → ∃ s, findIdx ch l = some s ∧ s ≤ i := by
  intro l
  induction l with
  | nil => intro i h; simp at h
  | cons c rest ih =>
    intro i h
    by_cases hc : c = ch
    · exact ⟨0, by simp [findIdx, hc], Nat.zero_le i⟩
    · cases i with
      | zero => simp at h; exact absurd h hc
      | succ k =>
        simp only [List.getElem?_cons_succ] at h
        obtain ⟨s, hs, hle⟩ := ih k h
        exact ⟨s + 1, by simp [findIdx, hc, hs], Nat.succ_le_succ hle⟩

theorem rfindIdx_get (ch : Char) :
    ∀ (l : List Char) (i : Nat), rfindIdx ch l = some i → l[i]? = some ch := by
  intro l
  induction l with
  | nil => intro i h; simp [rfindIdx] at h
  | cons c rest ih =>
    intro i h
    unfold rfindIdx at h
    cases hr : rfindIdx ch rest with
    | some k =>
      rw [hr] at h
      simp only [Option.some.injEq] at h
      subst h
      simpa using ih k hr
    | none =>
      rw [hr] at h
      by_cases hc : c = ch
      · rw [if_pos hc] at h
        simp only [Option.some.injEq] at h
        subst h
        simp [hc]
      · rw [if_neg hc] at h
        exact absurd h (by simp)

theorem rfindIdx_max (ch : Char) :
    ∀ (l : List Char) (i : Nat), l[i]? = some ch → ∃ e, rfindIdx ch l = some e ∧ i ≤ e := by
  intro l
  induction l with
  | nil => intro i h; simp at h
  | cons c rest ih =>
    intro i h
    cases i with
    | zero =>
      simp only [List.getElem?_cons_zero, Option.some.injEq] at h
      cases hr : rfindIdx ch rest with
      | some k => exact ⟨k + 1, by simp [rfindIdx, hr], Nat.zero_le _⟩
      | none => exact ⟨0, by simp [rfindIdx, hr, h], Nat.le_refl 0⟩
    | succ k =>
      simp only [List.getElem?_cons_succ] at h
      obtain ⟨e, he, hle⟩ := ih k h
      exact ⟨e + 1, by simp [rfindIdx, he], Nat.succ_le_succ hle⟩

/-- Extraction invariant: any value `_extract_json_from_text` returns
starts with an opening brace and ends with a closing brace. -/
theorem extract_shape (text s : List Char) (h : extract_json_from_text text = some s) :
    s.head? = some '\x7b' ∧ s.getLast? = some '\x7d' := by
  unfold extract_json_from_text at h
  by_cases ht : text = []
  · rw [if_pos ht] at h
    exact absurd h (by simp)
  · rw [if_neg ht] at h
    simp only at h
    by_cases hfast : (cleanedText text).head? = some '\x7b' ∧
        (cleanedText text).getLast? = some '\x7d'
    · rw [if_pos hfast] at h
      simp only [Option.some.injEq] at h
      subst h
      exact hfast
    · rw [if_neg hfast] at h
      split at h
      · rename_i s0 e0 hs he
        split at h
        · rename_i hlt
          simp only [Option.some.injEq] at h
          subst h
          have hso : (cleanedText text)[s0]? = some '\x7b' := findIdx_get _ _ _ hs
          have heo : (cleanedText text)[e0]? = some '\x7d' := rfindIdx_get _ _ _ he
          have helen : e0 < (cleanedText text).length := by
            by_contra hge
            rw [List.getElem?_eq_none (Nat.le_of_not_lt hge)] at heo
            exact absurd heo (by simp)
          set mid := ((cleanedText text).drop s0).take (e0 + 1 - s0) with hmid
          have hmidlen : mid.length = e0 + 1 - s0 := by
            rw [hmid, List.length_take, List.length_drop]
            omega
          have hhead : mid.head? = some '\x7b' := by
            rw [List.head?_eq_getElem?, hmid,
              List.getElem?_take_of_lt (by omega : 0 < e0 + 1 - s0),
              List.getElem?_drop, Nat.add_zero]
            exact hso
          have hlast : mid.getLast? = some '\x7d' := by
            rw [List.getLast?_eq_getElem?, hmidlen,
              show e0 + 1 - s0 - 1 = e0 - s0 by omega, hmid,
              List.getElem?_take_of_lt (by omega : e0 - s0 < e0 + 1 - s0),
              List.getElem?_drop,
              show s0 + (e0 - s0) = e0 by omega]
            exact heo
          rw [pyStrip_eq_self mid '\x7b' '\x7d' hhead (by decide) hlast (by decide)]
          exact ⟨hhead, hlast⟩
        · exact absurd h (by simp)
      · exact absurd h (by simp)

/-- Dispatch property of the JSON scanner: input whose first character is
an opening brace parses, if at all, to an object. -/
theorem json_loads_obj (l : List Char) (v : Json)
    (hh : l.head? = some '\x7b') (h : json_loads l = some v) :
    ∃ m, v = Json.obj m := by
  obtain ⟨t, rfl⟩ : ∃ t, l = '\x7b' :: t := by
    cases l with
    | nil => exact absurd hh (by simp)
    | cons c t =>
      simp only [List.head?_cons, Option.some.injEq] at hh
      exact ⟨t, by rw [hh]⟩
  unfold json_loads at h
  rw [show skipW ('\x7b' :: t) = '\x7b' :: t from by
    simp [skipW, List.dropWhile_cons, show isJsonWs '\x7b' = false from rfl]] at h
  rw [show ('\x7b' :: t).length + 1 = (t.length + 1) + 1 by simp] at h
  simp only [parseValueF] at h
  split at h
  · rename_i v' rest heq
    split at h
    · simp only [Option.some.injEq] at h
      subst h
      split at heq
      · simp only [Prod.mk.injEq, Option.some.injEq] at heq
        exact ⟨[], heq.1.symm⟩
      · simp only [Option.map_eq_some'] at heq
        obtain ⟨p, _, hpv⟩ := heq
        simp only [Prod.mk.injEq] at hpv
        exact ⟨p.1, hpv.1.symm⟩
    · exact absurd h (by simp)
  · exact absurd h (by simp)

/-- The text consumed after a fence is not longer than the text it came
from. -/
theorem afterFence_length_le (l : List Char) : (afterFence l).length ≤ l.length := by
  unfold afterFence dropJsonTag
  split
  · exact le_trans (List.dropWhile_suffix isPySpace).length_le (by simp [List.length_drop])
  · exact (List.dropWhile_suffix isPySpace).length_le

/-- Fuel irrelevance of the fence scan: any fuel at least the length of
the input yields the same result. -/
theorem removeFencesF_irrel :
    ∀ (f1 : Nat) (l : List Char) (f2 : Nat), l.length ≤ f1 → l.length ≤ f2 →
      removeFencesF f1 l = removeFencesF f2 l := by
  intro f1
  induction f1 with
  | zero =>
    intro l f2 h1 _
    have : l = [] := List.length_eq_zero.mp (Nat.le_zero.mp h1)
    subst this
    cases f2 <;> rfl
  | succ f ih =>
    intro l f2 h1 h2
    cases l with
    | nil => cases f2 <;> rfl
    | cons c rest =>
      cases f2 with
      | zero => simp at h2
      | succ g =>
        simp only [removeFencesF]
        by_cases hf : (c :: rest).take 3 = fenceChars
        · rw [if_pos hf, if_pos hf]
          have hlen : (afterFence (rest.drop 2)).length ≤ rest.length - 2 :=
            le_trans (afterFence_length_le _) (by simp [List.length_drop])
          simp only [List.length_cons] at h1 h2
          exact ih _ g (by omega) (by omega)
        · rw [if_neg hf, if_neg hf]
          simp only [List.length_cons] at h1 h2
          rw [ih rest g (by omega) (by omega)]

/-- Unfolding of `removeFences` at a fence: the fence, the optional tag
and the following whitespace are removed and the scan continues. -/
theorem removeFences_fence (b : List Char) :
    removeFences (btick :: btick :: btick :: b) = removeFences (afterFence b) := by
  unfold removeFences
  have h3 : (btick :: btick :: btick :: b).take 3 = fenceChars := by
    simp [fenceChars]
  simp only [List.length_cons, removeFencesF, h3, if_pos]
  rw [show (btick :: btick :: b).drop 2 = b from rfl]
  exact removeFencesF_irrel (b.length + 2) (afterFence b) (afterFence b).length
    (le_trans (afterFence_length_le b) (Nat.le_add_right _ 2)) le_rfl

/-- Unfolding of `removeFences` off a fence: the character is kept and the
scan continues. -/
theorem removeFences_cons (c : Char) (rest : List Char)
    (h : (c :: rest).take 3 ≠ fenceChars) :
    removeFences (c :: rest) = c :: removeFences rest := by
  unfold removeFences
  simp only [List.length_cons, removeFencesF, if_neg h]

/-! ### The claims -/

/-- Comparison definition for claim C1, following the words of spec §4.3:
a key present with a string value yields the whitespace-trimmed string; an
absent key or a non-string value yields the empty string. -/
def specFieldValue (m : List (List Char × Json)) (k : List Char) : List Char :=
  match List.lookup k m with
  | some (Json.str s) => pyStrip s
  | some _ => []
  | none => []

/-- The normalization of one field agrees with the spec's per-key rule. -/
theorem strField_eq_spec (m : List (List Char × Json)) (k : List Char) :
    strField m k = specFieldValue m k := by
  unfold strField specFieldValue pyDictGet
  cases h : List.lookup k m with
  | none => simp [pyStrip, dropTrailingWs]
  | some v => cases v <;> simp

/-- C1: for every key-value mapping given to the normalization step,
normalization is total and returns a record with exactly the four keys
`reflection`, `dream_summary`, `mindset`, `strategy`, each value being the
whitespace-trimmed string from the mapping when the key is present with a
string value, and the empty string when the key is absent or its value is
not a string. -/
theorem C1_normalize_total (m : List (List Char × Json)) :
    normalizeResult m =
      [(reflectionK, Json.str (specFieldValue m reflectionK)),
       (dream_summaryK, Json.str (specFieldValue m dream_summaryK)),
       (mindsetK, Json.str (specFieldValue m mindsetK)),
       (strategyK, Json.str (specFieldValue m strategyK))] := by
  simp [normalizeResult, strField_eq_spec]

/-- C2: for every input text whose cleaned form does not both start with an
opening brace and end with a closing brace, if the cleaned text has its
first opening brace strictly before its last closing brace then extraction
returns the substring from that first opening brace to that last closing
brace inclusive, trimmed of surrounding whitespace. -/
theorem C2_greedy_span (text : List Char) (i j : Nat)
    (hfast : ¬((cleanedText text).head? = some '\x7b' ∧
      (cleanedText text).getLast? = some '\x7d'))
    (hi : findIdx '\x7b' (cleanedText text) = some i)
    (hj : rfindIdx '\x7d' (cleanedText text) = some j)
    (hij : i < j) :
    extract_json_from_text text =
      some (pyStrip (((cleanedText text).drop i).take (j + 1 - i))) := by
  have ht : text ≠ [] := by
    intro h
    subst h
    rw [show cleanedText ([] : List Char) = [] from rfl] at hi
    simp [findIdx] at hi
  unfold extract_json_from_text
  rw [if_neg ht]
  simp only
  rw [if_neg hfast, hi, hj]
  simp [hij]

/-- Witness for C2, at the spec's own example. -/
theorem C2_witness :
    extract_json_from_text (("here is the result: \x7b\"a\":1\x7d thanks").data) =
      some (("\x7b\"a\":1\x7d").data) :=
  (C2_greedy_span (("here is the result: \x7b\"a\":1\x7d thanks").data) 20 26
    (by decide) (by decide) (by decide) (by decide)).trans (by decide)

/-- C3: for every four-tuple of input strings and every provider behavior,
`generate_reflection` returns exactly one of two disjoint shapes — a
success record whose keys are exactly `reflection`, `dream_summary`,
`mindset`, `strategy`, or an error record whose keys are exactly `error`
and `raw` — and never a hybrid of the two. -/
theorem C3_two_shapes (cfg : Config) (p : ProviderBehavior) (j i d pr : List Char) :
    ∃ out, generate_reflection cfg p j i d pr = some out ∧
      (out.map Prod.fst = [reflectionK, dream_summaryK, mindsetK, strategyK] ∨
       out.map Prod.fst = [errK, rawK]) := by
  unfold generate_reflection
  split
  · exact ⟨_, rfl, Or.inr rfl⟩
  · split
    · exact ⟨_, rfl, Or.inr rfl⟩
    · rename_i raw _
      unfold afterLlm
      split
      · exact ⟨_, rfl, Or.inr rfl⟩
      · rename_i jt hx
        have hshape := extract_shape _ _ hx
        have hne : jt ≠ [] := by
          intro h
          subst h
          simp at hshape
        rw [if_neg hne]
        unfold afterParse
        split
        · exact ⟨_, rfl, Or.inr rfl⟩
        · exact ⟨_, rfl, Or.inl (by simp [normalizeResult])⟩
        · rename_i v hnotobj hp
          obtain ⟨m, rfl⟩ := json_loads_obj jt v hshape.1 hp
          exact absurd rfl (hnotobj m)

/-- C4: with no provider credential configured, `generate_reflection`
returns the no-credentials error record — kind the no-credentials message,
raw field carrying no payload (Python `None`, the spec's "absent" raw) —
and does so independently of the provider behavior, i.e. with zero
provider invocations. -/
theorem C4_no_credentials (cfg : Config) (p p' : ProviderBehavior) (j i d pr : List Char)
    (h : (truthy cfg.OPENAI_API_KEY || truthy cfg.TOGETHER_API_KEY) = false) :
    generate_reflection cfg p j i d pr =
      some [(errK, Json.str noKeyMsg), (rawK, Json.null)] ∧
    generate_reflection cfg p j i d pr = generate_reflection cfg p' j i d pr := by
  constructor
  · unfold generate_reflection
    rw [if_pos h]
  · unfold generate_reflection
    rw [if_pos h, if_pos h]

/-- Witness for C4, with both environment variables unset and two distinct
provider behaviors. -/
theorem C4_witness :
    generate_reflection ⟨none, none⟩ (ProviderBehavior.ok (("x").data)) [] [] [] [] =
      some [(errK, Json.str noKeyMsg), (rawK, Json.null)] ∧
    generate_reflection ⟨none, none⟩ (ProviderBehavior.ok (("x").data)) [] [] [] [] =
      generate_reflection ⟨none, none⟩ (ProviderBehavior.raises (("boom").data)) [] [] [] [] :=
  C4_no_credentials ⟨none, none⟩ (ProviderBehavior.ok (("x").data))
    (ProviderBehavior.raises (("boom").data)) [] [] [] [] (by decide)

/-- C5 counterexample input: a fence token that is neither leading nor
trailing. -/
def c5Input : List Char := ("x ").data ++ fenceChars ++ ("json y").data

/-- C5 counterexample: the claim says the fence-stripping step leaves
fence tokens that are neither leading nor trailing unchanged, but the
cleaning removes the mid-text fence of `"x ```json y"`: the cleaned text
is `"x y"` and contains no backtick at all. -/
theorem C5_counterexample :
    cleanedText c5Input = ("x y").data ∧ ¬ btick ∈ cleanedText c5Input := by
  constructor
  · decide
  · decide

/-- C5 as amended: the first substitution removes every fence token
(together with an optional `json` tag and the whitespace that follows it)
wherever it occurs, scanning left to right — backtick-free text is left
unchanged, and at a fence the prefix is kept while the fence, tag and
following whitespace are dropped. -/
theorem C5_fence_removal_global :
    (∀ a : List Char, ¬ btick ∈ a → removeFences a = a) ∧
    (∀ a b : List Char, ¬ btick ∈ a →
      removeFences (a ++ fenceChars ++ b) = a ++ removeFences (afterFence b)) := by
  have hkeep : ∀ (c : Char) (rest : List Char), c ≠ btick →
      (c :: rest).take 3 ≠ fenceChars := by
    intro c rest hc hf
    cases rest with
    | nil => simp [fenceChars] at hf
    | cons c2 rest2 =>
      cases rest2 with
      | nil => simp [fenceChars] at hf
      | cons c3 rest3 =>
        simp only [List.take, fenceChars, List.cons.injEq] at hf
        exact hc hf.1
  constructor
  · intro a
    induction a with
    | nil => intro _; rfl
    | cons c rest ih =>
      intro hmem
      rw [removeFences_cons c rest (hkeep c rest (fun hc => hmem (by simp [hc])))]
      rw [ih (fun hm => hmem (by simp [hm]))]
  · intro a b
    induction a with
    | nil =>
      intro _
      simp only [List.nil_append]
      exact removeFences_fence b
    | cons c rest ih =>
      intro hmem
      simp only [List.cons_append]
      rw [removeFences_cons c (rest ++ fenceChars ++ b)
        (hkeep c _ (fun hc => hmem (by simp [hc])))]
      rw [ih (fun hm => hmem (by simp [hm]))]

/-- Witness for C5 as amended: the counterexample input evaluated through
the second conjunct. -/
theorem C5_witness :
    removeFences (("x ").data ++ fenceChars ++ ("json y").data) =
      ("x ").data ++ removeFences (afterFence (("json y").data)) :=
  C5_fence_removal_global.2 (("x ").data) (("json y").data) (by decide)

/-- C6: extraction signals absence exactly when the input is empty, or the
cleaned text contains no opening brace strictly before a closing brace; in
particular the empty string and any brace-free text give absence. -/
theorem C6_absence_iff (text : List Char) :
    extract_json_from_text text = none ↔
      (text = [] ∨ ∀ i j : Nat, i < j →
        ¬((cleanedText text)[i]? = some '\x7b' ∧
          (cleanedText text)[j]? = some '\x7d')) := by
  by_cases ht : text = []
  · simp [extract_json_from_text, ht]
  · unfold extract_json_from_text
    rw [if_neg ht]
    simp only
    by_cases hfast : (cleanedText text).head? = some '\x7b' ∧
        (cleanedText text).getLast? = some '\x7d'
    · rw [if_pos hfast]
      constructor
      · intro h
        exact absurd h (by simp)
      · intro h
        rcases h with h | hP
        · exact absurd h ht
        · have e1 : (cleanedText text)[0]? = some '\x7b' := by
            rw [← List.head?_eq_getElem?]
            exact hfast.1
          have e2 : (cleanedText text)[(cleanedText text).length - 1]? = some '\x7d' := by
            rw [← List.getLast?_eq_getElem?]
            exact hfast.2
          have hpos : 0 < (cleanedText text).length := by
            by_contra hle
            rw [List.getElem?_eq_none (by omega)] at e1
            exact absurd e1 (by simp)
          have hone : 0 < (cleanedText text).length - 1 := by
            by_contra hle
            rw [show (cleanedText text).length - 1 = 0 by omega] at e2
            rw [e1] at e2
            exact absurd e2 (by simp)
          exact absurd ⟨e1, e2⟩ (hP 0 ((cleanedText text).length - 1) hone)
    · rw [if_neg hfast]
      constructor
      · intro h
        right
        intro i j hij hpair
        obtain ⟨s, hs, hsle⟩ := findIdx_min '\x7b' _ i hpair.1
        obtain ⟨e, he, hele⟩ := rfindIdx_max '\x7d' _ j hpair.2
        rw [hs, he] at h
        have hslt : s < e := by omega
        simp [hslt] at h
      · intro h
        rcases h with h | hP
        · exact absurd h ht
        · cases hs : findIdx '\x7b' (cleanedText text) with
          | none => simp [hs]
          | some s =>
            cases he : rfindIdx '\x7d' (cleanedText text) with
            | none => simp [hs, he]
            | some e =>
              have hnlt : ¬ s < e := by
                intro hslt
                exact hP s e hslt ⟨findIdx_get _ _ _ hs, rfindIdx_get _ _ _ he⟩
              simp [hs, he, hnlt]

/-- C7: when extraction yields a JSON-shaped substring that fails to
parse, `generate_reflection` returns the JSON-decode-error record whose
raw field is exactly the extracted substring (not the full raw response
text). -/
theorem C7_decode_error (cfg : Config) (p : ProviderBehavior)
    (j i d pr raw jt : List Char)
    (hc : (truthy cfg.OPENAI_API_KEY || truthy cfg.TOGETHER_API_KEY) = true)
    (hl : llmStep cfg p = Except.ok raw)
    (he : extract_json_from_text (pyStrip raw) = some jt)
    (hp : json_loads jt = none) :
    generate_reflection cfg p j i d pr =
      some [(errK, Json.str decodeMsg), (rawK, Json.str jt)] := by
  have hne : jt ≠ [] := by
    have := extract_shape _ _ he
    intro h
    subst h
    simp at this
  unfold generate_reflection afterLlm afterParse
  rw [if_neg (by simp [hc])]
  simp only [hl, he, if_neg hne, hp]

/-- Witness for C7: the provider reply embeds the spec's malformed-JSON
example in surrounding prose, so the extracted substring differs from the
full raw text. -/
theorem C7_witness :
    generate_reflection ⟨some (("k").data), none⟩
      (ProviderBehavior.ok (("Sure! \x7b\"reflection\": \x7d bye").data)) [] [] [] [] =
      some [(errK, Json.str decodeMsg), (rawK, Json.str (("\x7b\"reflection\": \x7d").data))] :=
  C7_decode_error ⟨some (("k").data), none⟩
    (ProviderBehavior.ok (("Sure! \x7b\"reflection\": \x7d bye").data)) [] [] [] []
    (("Sure! \x7b\"reflection\": \x7d bye").data) (("\x7b\"reflection\": \x7d").data)
    (by decide) (by rfl) (by decide) (by rfl)

set_option maxRecDepth 100000 in
/-- C8 counterexample: with all four inputs the single character `a`, the
built prompt contains that input 54 times, not exactly once — the claim's
"contains each input verbatim exactly once" fails whenever an input's text
also occurs in the fixed template text or in another input. -/
theorem C8_counterexample :
    countOcc (("a").data) (buildPrompt (("a").data) (("a").data) (("a").data) (("a").data)) = 54 ∧
    ¬ countOcc (("a").data)
        (buildPrompt (("a").data) (("a").data) (("a").data) (("a").data)) = 1 := by
  constructor
  · decide
  · decide

set_option maxRecDepth 100000 in
/-- C8 as amended: the built prompt interpolates each input exactly once,
at its labeled slot — the prompt is the fixed template text with the
journal inserted after "Morning Journal: ", the intention after
"Intention: ", the dream after "Dream: " and the priorities after
"Top 3 Priorities: ", inputs inserted literally with no escaping; the
total occurrence count of an input's text can exceed one when it also
appears in the fixed text or in another input. -/
theorem C8_prompt_slots (j i d p : List Char) :
    buildPrompt j i d p =
      promptSeg0 ++ j ++ promptSeg1 ++ i ++ promptSeg2 ++ d ++ promptSeg3 ++ p ++ promptSeg4 := by
  have h : buildPrompt j i d p =
      promptSeg0 ++ (j ++ (promptSeg1 ++ (i ++ (promptSeg2 ++ (d ++ (promptSeg3 ++ (p ++ promptSeg4))))))) := by
    rfl
  simp only [← List.append_assoc] at h
  exact h

/-- C9: whenever extraction returns a value, that value starts with an
opening brace and ends with a closing brace, so a successful parse of it
is always a JSON object, never a bare array, number, string or null. -/
theorem C9_extract_object (text s : List Char)
    (h : extract_json_from_text text = some s) :
    s.head? = some '\x7b' ∧ s.getLast? = some '\x7d' ∧
      ∀ v, json_loads s = some v → ∃ m, v = Json.obj m := by
  obtain ⟨h1, h2⟩ := extract_shape text s h
  exact ⟨h1, h2, fun v hv => json_loads_obj s v h1 hv⟩

/-- Witness for C9 at a reply wrapping the object in prose. -/
theorem C9_witness :
    (("\x7b\"a\":1\x7d").data).head? = some '\x7b' ∧
    (("\x7b\"a\":1\x7d").data).getLast? = some '\x7d' ∧
      ∀ v, json_loads (("\x7b\"a\":1\x7d").data) = some v → ∃ m, v = Json.obj m :=
  C9_extract_object (("ok: \x7b\"a\":1\x7d thanks").data) (("\x7b\"a\":1\x7d").data) (by decide)

/-- C10: with only the fallback credential set (`TOGETHER_API_KEY`
present, `OPENAI_API_KEY` absent), `generate_reflection` passes the
credential check, `_build_llm` raises because the primary key is missing,
and the result is the `LLM call failed` error record carrying the
`RuntimeError` message — not the no-credentials record. -/
theorem C10_fallback_key (cfg : Config) (p : ProviderBehavior) (j i d pr : List Char)
    (h1 : cfg.OPENAI_API_KEY = none) (h2 : truthy cfg.TOGETHER_API_KEY = true) :
    generate_reflection cfg p j i d pr =
      some [(errK, Json.str llmFailedMsg), (rawK, Json.str buildLlmMsg)] ∧
    generate_reflection cfg p j i d pr ≠
      some [(errK, Json.str noKeyMsg), (rawK, Json.null)] := by
  have hcred : (truthy cfg.OPENAI_API_KEY || truthy cfg.TOGETHER_API_KEY) = true := by
    rw [h1, h2]
    simp [truthy]
  have hstep : llmStep cfg p = Except.error buildLlmMsg := by
    unfold llmStep
    rw [h1]
    simp [truthy]
  have hmain : generate_reflection cfg p j i d pr =
      some [(errK, Json.str llmFailedMsg), (rawK, Json.str buildLlmMsg)] := by
    unfold generate_reflection
    rw [if_neg (by simp [hcred])]
    simp only [hstep]
  refine ⟨hmain, ?_⟩
  rw [hmain]
  intro heq
  simp only [Option.some.injEq, List.cons.injEq, Prod.mk.injEq, Json.str.injEq] at heq
  exact absurd heq.1.2 (by decide)

/-- Witness for C10 with the fallback credential set to `"t"`. -/
theorem C10_witness :
    generate_reflection ⟨none, some (("t").data)⟩ (ProviderBehavior.ok (("x").data)) [] [] [] [] =
      some [(errK, Json.str llmFailedMsg), (rawK, Json.str buildLlmMsg)] ∧
    generate_reflection ⟨none, some (("t").data)⟩ (ProviderBehavior.ok (("x").data)) [] [] [] [] ≠
      some [(errK, Json.str noKeyMsg), (rawK, Json.null)] :=
  C10_fallback_key ⟨none, some (("t").data)⟩ (ProviderBehavior.ok (("x").data)) [] [] [] []
    (by rfl) (by decide)
